import Mathlib

/-!
Verification of the row-sharded batch-inference pipeline
(`src/daos/infer_equations_llama_mpi.py` and its helpers in
`src/daos/math_prompt.py` and `src/prompts/expressions/helpers.py`).

The Python source is shallowly embedded: pure functions become Lean
functions, the stateful per-batch processing loop becomes explicit state
passing over a `LoopState`, and the external inference backend becomes an
oracle parameter.  Machine integers do not overflow anywhere in the
source (row counts, ports, attempt counters), so `Nat`/`Int` are used
directly.
-/

namespace Pipeline

/-- Python `range(start, stop, step)` for a positive `step`, as the list of
its elements.  `range(a, b, s) = [a, a+s, a+2s, ...)` strictly below `b`. -/
def pyRange (start stop step : Nat) : List Nat :=
  List.range' start ((stop - start + step - 1) / step) step

/-- Model of `my_rows` in `process_file_row_sharded`
(src/daos/infer_equations_llama_mpi.py:256):
`list(range(world_rank + start_offset * world_size, total_rows, world_size))`. -/
def myRows (world_rank world_size start_offset total_rows : Nat) : List Nat :=
  pyRange (world_rank + start_offset * world_size) total_rows world_size

/-! ## JSON values

The source manipulates JSON through Python's `json` module (`json.loads`,
`json.dumps`) and validates instances with `jsonschema.Draft7Validator`.
We embed JSON values as an inductive type and model those library
functions over it. -/
inductive Json where
  | null
  | bool (b : Bool)
  | num (n : Int)
  | str (s : String)
  | arr (xs : List Json)
  | obj (kvs : List (String × Json))

def lbrace : Char := Char.ofNat 123

def rbrace : Char := Char.ofNat 125

/-- The whitespace skipped between JSON tokens by Python's `json` module
(space, tab, newline, carriage return). -/
def isJsonWs (c : Char) : Bool :=
  c = ' ' || c = '\t' || c = '\n' || c = '\r'

def isDigitCh (c : Char) : Bool := '0' ≤ c && c ≤ '9'

def natOfDigits (ds : List Char) : Nat :=
  ds.foldl (fun a c => 10 * a + (c.toNat - 48)) 0

def hexVal (c : Char) : Option Nat :=
  if '0' ≤ c && c ≤ '9' then some (c.toNat - 48)
  else if 'a' ≤ c && c ≤ 'f' then some (c.toNat - 87)
  else if 'A' ≤ c && c ≤ 'F' then some (c.toNat - 55)
  else none

/-- Python dict insert semantics for a repeated key: the original position
is kept, the value is replaced (`d[k] = v`). -/
def upsert (k : String) (v : Json) : List (String × Json) → List (String × Json)
  | [] => [(k, v)]
  | (k1, v1) :: rest =>
    if k1 = k then (k1, v) :: rest else (k1, v1) :: upsert k v rest

/-- JSON string-literal body (after the opening quote), with the escape
handling of Python's strict decoder: `\" \\ \/ \b \f \n \r \t \uXXXX`,
raw control characters rejected.  Model restriction: `\uXXXX` only for
non-surrogate code points. -/
def parseStrRest : Nat → List Char → List Char → Option (String × List Char)
  | 0, _, _ => none
  | fuel+1, acc, cs =>
    match cs with
    | [] => none
    | c :: rest =>
      if c = '"' then some (String.mk acc.reverse, rest)
      else if c = '\\' then
        match rest with
        | [] => none
        | e :: rest2 =>
          if e = '"' then parseStrRest fuel ('"' :: acc) rest2
          else if e = '\\' then parseStrRest fuel ('\\' :: acc) rest2
          else if e = '/' then parseStrRest fuel ('/' :: acc) rest2
          else if e = 'b' then parseStrRest fuel ('\x08' :: acc) rest2
          else if e = 'f' then parseStrRest fuel ('\x0c' :: acc) rest2
          else if e = 'n' then parseStrRest fuel ('\n' :: acc) rest2
          else if e = 'r' then parseStrRest fuel ('\r' :: acc) rest2
          else if e = 't' then parseStrRest fuel ('\t' :: acc) rest2
          else if e = 'u' then
            match rest2 with
            | h1 :: h2 :: h3 :: h4 :: rest3 =>
              match hexVal h1, hexVal h2, hexVal h3, hexVal h4 with
              | some a, some b, some c2, some d =>
                let n := ((a * 16 + b) * 16 + c2) * 16 + d
                if n < 0xd800 || 0xe000 ≤ n then
                  parseStrRest fuel (Char.ofNat n :: acc) rest3
                else none
              | _, _, _, _ => none
            | _ => none
          else none
      else if c.toNat < 32 then none
      else parseStrRest fuel (c :: acc) rest

/-- JSON number token: optional minus, integer digits without a redundant
leading zero, optional fractional digits.  The value is truncated toward
zero, matching the `int(...)` conversion the source applies to any numeric
value it reads back.  Model restriction: no exponent part. -/
def parseNum (cs : List Char) : Option (Json × List Char) :=
  let (neg, cs1) := match cs with
    | '-' :: t => (true, t)
    | _ => (false, cs)
  let (ds, cs2) := cs1.span isDigitCh
  match ds with
  | [] => none
  | d0 :: drest =>
    if d0 = '0' && !drest.isEmpty then none
    else
      let (cs3, okFrac) := match cs2 with
        | '.' :: t =>
          let (fs, t2) := t.span isDigitCh
          (t2, !fs.isEmpty)
        | _ => (cs2, true)
      if !okFrac then none
      else match cs3 with
        | e :: _ => if e = 'e' || e = 'E' then none
                    else some (.num (if neg then -(natOfDigits ds : Int) else (natOfDigits ds : Int)), cs3)
        | [] => some (.num (if neg then -(natOfDigits ds : Int) else (natOfDigits ds : Int)), [])

mutual

/-- Fuel-indexed JSON value parser, modelling the recursive-descent
decoder behind Python's `json.loads`. -/
def parseVal : Nat → List Char → Option (Json × List Char)
  | 0, _ => none
  | fuel+1, cs =>
    match cs.dropWhile isJsonWs with
    | [] => none
    | c :: rest =>
      if c = lbrace then
        match (rest.dropWhile isJsonWs) with
        | c2 :: rest2 =>
          if c2 = rbrace then some (.obj [], rest2)
          else parseMembers fuel [] (c2 :: rest2)
        | [] => none
      else if c = '[' then
        match (rest.dropWhile isJsonWs) with
        | ']' :: rest2 => some (.arr [], rest2)
        | cs2 => parseItems fuel [] cs2
      else if c = '"' then
        match parseStrRest (rest.length + 1) [] rest with
        | some (s, rest2) => some (.str s, rest2)
        | none => none
      else if c = 't' then
        match rest with
        | 'r' :: 'u' :: 'e' :: rest2 => some (.bool true, rest2)
        | _ => none
      else if c = 'f' then
        match rest with
        | 'a' :: 'l' :: 's' :: 'e' :: rest2 => some (.bool false, rest2)
        | _ => none
      else if c = 'n' then
        match rest with
        | 'u' :: 'l' :: 'l' :: rest2 => some (.null, rest2)
        | _ => none
      else if c = '-' || isDigitCh c then parseNum (c :: rest)
      else none

/-- Object members, starting at a key (after `{` and any whitespace). -/
def parseMembers : Nat → List (String × Json) → List Char → Option (Json × List Char)
  | 0, _, _ => none
  | fuel+1, acc, cs =>
    match cs.dropWhile isJsonWs with
    | '"' :: rest =>
      match parseStrRest (rest.length + 1) [] rest with
      | some (k, rest2) =>
        match rest2.dropWhile isJsonWs with
        | ':' :: rest3 =>
          match parseVal fuel rest3 with
          | some (v, rest4) =>
            let acc2 := upsert k v acc
            match rest4.dropWhile isJsonWs with
            | ',' :: rest5 => parseMembers fuel acc2 rest5
            | c :: rest5 => if c = rbrace then some (.obj acc2, rest5) else none
            | [] => none
          | none => none
        | _ => none
      | none => none
    | _ => none

/-- Array items, starting at a value (after `[` and any whitespace). -/
def parseItems : Nat → List Json → List Char → Option (Json × List Char)
  | 0, _, _ => none
  | fuel+1, acc, cs =>
    match parseVal fuel cs with
    | some (v, rest) =>
      match rest.dropWhile isJsonWs with
      | ',' :: rest2 => parseItems fuel (acc ++ [v]) rest2
      | ']' :: rest2 => some (.arr (acc ++ [v]), rest2)
      | _ => none
    | none => none

end

/-- Model of Python `json.loads`: a full JSON document — one value with
only whitespace around it. -/
def jsonLoadsL (cs : List Char) : Option Json :=
  match parseVal (2 * cs.length + 8) cs with
  | some (j, rest) => if (rest.dropWhile isJsonWs).isEmpty then some j else none
  | none => none

def jsonLoads (s : String) : Option Json := jsonLoadsL s.data

/-! ## Model of `json.dumps` (default separators, `ensure_ascii=False`) -/
def hexDigitCh (n : Nat) : Char :=
  if n < 10 then Char.ofNat (48 + n) else Char.ofNat (87 + n)

def escChar (c : Char) : String :=
  if c = '"' then "\\\""
  else if c = '\\' then "\\\\"
  else if c = '\n' then "\\n"
  else if c = '\t' then "\\t"
  else if c = '\r' then "\\r"
  else if c = '\x08' then "\\b"
  else if c = '\x0c' then "\\f"
  else if c.toNat < 32 then
    "\\u00" ++ String.mk [hexDigitCh (c.toNat / 16), hexDigitCh (c.toNat % 16)]
  else String.mk [c]

def quoteStr (s : String) : String :=
  "\"" ++ String.join (s.data.map escChar) ++ "\""

mutual

def jsonDumps : Json → String
  | .null => "null"
  | .bool b => cond b "true" "false"
  | .num n => toString n
  | .str s => quoteStr s
  | .arr xs => "[" ++ dumpsItems xs ++ "]"
  | .obj kvs => String.mk [lbrace] ++ dumpsMembers kvs ++ String.mk [rbrace]

def dumpsItems : List Json → String
  | [] => ""
  | [x] => jsonDumps x
  | x :: y :: t => jsonDumps x ++ ", " ++ dumpsItems (y :: t)

def dumpsMembers : List (String × Json) → String
  | [] => ""
  | [(k, v)] => quoteStr k ++ ": " ++ jsonDumps v
  | (k, v) :: p :: t => quoteStr k ++ ": " ++ jsonDumps v ++ ", " ++ dumpsMembers (p :: t)

end

/-! ## The fixed schema (`PURE_MATH_JSON_SCHEMA`, src/daos/math_prompt.py:145)

Two views of the same source dict: the JSON value (used verbatim by
`build_prompt` through `json.dumps`) and the validation semantics that
`Draft7Validator(PURE_MATH_JSON_SCHEMA).validate` applies to an instance
(`type` / `required` / `additionalProperties: False` / per-property
subschemas / `minLength` / `maxItems`), transcribed level by level. -/
def strMin1Schema : Json :=
  .obj [("type", .str "string"), ("minLength", .num 1)]

def PURE_MATH_JSON_SCHEMA : Json :=
  .obj
    [ ("type", .str "object"),
      ("required", .arr [.str "input", .str "analysis", .str "equivalents"]),
      ("additionalProperties", .bool false),
      ("properties", .obj
        [ ("input", .obj
            [ ("type", .str "object"),
              ("required", .arr [.str "latex_raw"]),
              ("additionalProperties", .bool false),
              ("properties", .obj [("latex_raw", strMin1Schema)]) ]),
          ("analysis", .obj
            [ ("type", .str "object"),
              ("required", .arr [.str "math_keywords", .str "math_sentence", .str "katex"]),
              ("additionalProperties", .bool false),
              ("properties", .obj
                [ ("math_keywords", .obj
                    [ ("type", .str "array"),
                      ("items", .obj [("type", .str "string")]),
                      ("maxItems", .num 10) ]),
                  ("math_sentence", strMin1Schema),
                  ("katex", strMin1Schema) ]) ]),
          ("equivalents", .obj
            [ ("type", .str "object"),
              ("required", .arr [.str "equiv_form_1", .str "equiv_form_2"]),
              ("additionalProperties", .bool false),
              ("properties", .obj
                [ ("equiv_form_1", .obj
                    [ ("type", .str "object"),
                      ("required", .arr [.str "name_of_trafo", .str "assumptions", .str "latex"]),
                      ("additionalProperties", .bool false),
                      ("properties", .obj
                        [ ("name_of_trafo", strMin1Schema),
                          ("assumptions", .obj
                            [ ("type", .str "array"),
                              ("items", .obj [("type", .str "string")]) ]),
                          ("latex", strMin1Schema) ]) ]),
                  ("equiv_form_2", .obj
                    [ ("type", .str "object"),
                      ("required", .arr [.str "name_of_trafo", .str "assumptions", .str "latex"]),
                      ("additionalProperties", .bool false),
                      ("properties", .obj
                        [ ("name_of_trafo", strMin1Schema),
                          ("assumptions", .obj
                            [ ("type", .str "array"),
                              ("items", .obj [("type", .str "string")]) ]),
                          ("latex", strMin1Schema) ]) ]) ]) ]) ]) ]

/-- Check `\x7b"type": "string", "minLength": 1\x7d` applied to an instance. -/
def vStrMin1 : Json → Bool
  | .str s => decide (1 ≤ s.length)
  | _ => false

def isJsonStr : Json → Bool
  | .str _ => true
  | _ => false

/-- Check `\x7b"type": "array", "items": \x7b"type": "string"\x7d\x7d`, with an optional
`maxItems` bound. -/
def vStrArr (maxItems : Option Nat) : Json → Bool
  | .arr xs =>
      xs.all isJsonStr &&
      (match maxItems with
        | some m => decide (xs.length ≤ m)
        | none => true)
  | _ => false

def hasKey (kvs : List (String × Json)) (k : String) : Bool :=
  kvs.any (fun kv => kv.1 == k)

def keysAllowed (kvs : List (String × Json)) (allowed : List String) : Bool :=
  kvs.all (fun kv => allowed.contains kv.1)

/-- Every binding of key `k` in the object satisfies its subschema
(`properties` semantics; vacuous when the key is absent). -/
def propAll (kvs : List (String × Json)) (k : String) (p : Json → Bool) : Bool :=
  kvs.all (fun kv => kv.1 != k || p kv.2)

/-- The `equiv_form_1` / `equiv_form_2` subschema. -/
def vEquivForm : Json → Bool
  | .obj kvs =>
      hasKey kvs "name_of_trafo" && hasKey kvs "assumptions" && hasKey kvs "latex" &&
      keysAllowed kvs ["name_of_trafo", "assumptions", "latex"] &&
      propAll kvs "name_of_trafo" vStrMin1 &&
      propAll kvs "assumptions" (vStrArr none) &&
      propAll kvs "latex" vStrMin1
  | _ => false

/-- The `input` subschema. -/
def vInput : Json → Bool
  | .obj kvs =>
      hasKey kvs "latex_raw" &&
      keysAllowed kvs ["latex_raw"] &&
      propAll kvs "latex_raw" vStrMin1
  | _ => false

/-- The `analysis` subschema. -/
def vAnalysis : Json → Bool
  | .obj kvs =>
      hasKey kvs "math_keywords" && hasKey kvs "math_sentence" && hasKey kvs "katex" &&
      keysAllowed kvs ["math_keywords", "math_sentence", "katex"] &&
      propAll kvs "math_keywords" (vStrArr (some 10)) &&
      propAll kvs "math_sentence" vStrMin1 &&
      propAll kvs "katex" vStrMin1
  | _ => false

/-- The `equivalents` subschema. -/
def vEquivalents : Json → Bool
  | .obj kvs =>
      hasKey kvs "equiv_form_1" && hasKey kvs "equiv_form_2" &&
      keysAllowed kvs ["equiv_form_1", "equiv_form_2"] &&
      propAll kvs "equiv_form_1" vEquivForm &&
      propAll kvs "equiv_form_2" vEquivForm
  | _ => false

/-- Full-instance validation against `PURE_MATH_JSON_SCHEMA`, i.e. what
`Draft7Validator(PURE_MATH_JSON_SCHEMA).validate(obj)` accepts. -/
def vPureMath : Json → Bool
  | .obj kvs =>
      hasKey kvs "input" && hasKey kvs "analysis" && hasKey kvs "equivalents" &&
      keysAllowed kvs ["input", "analysis", "equivalents"] &&
      propAll kvs "input" vInput &&
      propAll kvs "analysis" vAnalysis &&
      propAll kvs "equivalents" vEquivalents
  | _ => false

/-! Projections of the schema used to state claims about it: presence of
every `required` key, and absence of keys outside `properties`
(`additionalProperties: False`), at every object level of an instance.
Non-object values are vacuously fine for both. -/
def reqEquivForm : Json → Bool
  | .obj kvs => hasKey kvs "name_of_trafo" && hasKey kvs "assumptions" && hasKey kvs "latex"
  | _ => true

def reqInput : Json → Bool
  | .obj kvs => hasKey kvs "latex_raw"
  | _ => true

def reqAnalysis : Json → Bool
  | .obj kvs => hasKey kvs "math_keywords" && hasKey kvs "math_sentence" && hasKey kvs "katex"
  | _ => true

def reqEquivalents : Json → Bool
  | .obj kvs =>
      hasKey kvs "equiv_form_1" && hasKey kvs "equiv_form_2" &&
      propAll kvs "equiv_form_1" reqEquivForm &&
      propAll kvs "equiv_form_2" reqEquivForm
  | _ => true

/-- All required keys of the fixed schema are present, at every object
level of the instance. -/
def reqPureMath : Json → Bool
  | .obj kvs =>
      hasKey kvs "input" && hasKey kvs "analysis" && hasKey kvs "equivalents" &&
      propAll kvs "input" reqInput &&
      propAll kvs "analysis" reqAnalysis &&
      propAll kvs "equivalents" reqEquivalents
  | _ => true

def extraEquivForm : Json → Bool
  | .obj kvs => keysAllowed kvs ["name_of_trafo", "assumptions", "latex"]
  | _ => true

def extraInput : Json → Bool
  | .obj kvs => keysAllowed kvs ["latex_raw"]
  | _ => true

def extraAnalysis : Json → Bool
  | .obj kvs => keysAllowed kvs ["math_keywords", "math_sentence", "katex"]
  | _ => true

def extraEquivalents : Json → Bool
  | .obj kvs =>
      keysAllowed kvs ["equiv_form_1", "equiv_form_2"] &&
      propAll kvs "equiv_form_1" extraEquivForm &&
      propAll kvs "equiv_form_2" extraEquivForm
  | _ => true

/-- No key outside the fixed schema's `properties` occurs, at any object
level of the instance. -/
def extraPureMath : Json → Bool
  | .obj kvs =>
      keysAllowed kvs ["input", "analysis", "equivalents"] &&
      propAll kvs "input" extraInput &&
      propAll kvs "analysis" extraAnalysis &&
      propAll kvs "equivalents" extraEquivalents
  | _ => true

/-! ## Model of `parse_strict_json` (src/daos/infer_equations_llama_mpi.py:88-98)

`re.search(r"\{.*\}\s*$", s, flags=re.DOTALL)` then `json.loads` on the
match, then schema validation. -/
/-- Python's `\s` class, ASCII part (the regex runs with DOTALL only). -/
def isPySpace (c : Char) : Bool :=
  c = ' ' || c = '\t' || c = '\n' || c = '\r' || c = '\x0b' || c = '\x0c'

def stripTrailingWs (cs : List Char) : List Char :=
  (cs.reverse.dropWhile isPySpace).reverse

/-- The match of `\{.*\}\s*$` with DOTALL, as `m.group(0)`: it exists iff
some `{` is strictly before some `}` that only whitespace follows; being
leftmost-and-greedy it then spans from the first such `{` to the end of
the text. -/
def regexExtract (cs : List Char) : Option (List Char) :=
  if (stripTrailingWs cs).getLast? = some rbrace then
    ((stripTrailingWs cs).dropLast.findIdx? (fun x => x = lbrace)).map (fun i => cs.drop i)
  else none

inductive ParseOutcome where
  | ok (j : Json)
  | noJson
  | decodeError
  | schemaViolation (j : Json)

/-- Outcome of `parse_strict_json` over the characters of the model output:
`.noJson` is the `ValueError("No JSON found in model output")` raise,
`.decodeError` a raise out of `json.loads`, `.schemaViolation` a raise
out of `Draft7Validator(...).validate`. -/
def parseStrictCore (cs : List Char) : ParseOutcome :=
  match regexExtract cs with
  | none => .noJson
  | some g =>
    match jsonLoadsL g with
    | none => .decodeError
    | some j => if vPureMath j then .ok j else .schemaViolation j

def parse_strict_json (s : String) : ParseOutcome := parseStrictCore s.data

/-- The text contains a `{`...`}` substring ending the text (up to
trailing whitespace): the condition under which the extraction regex can
match at all. -/
def HasEndingObj (cs : List Char) : Prop :=
  ∃ a b d, cs = a ++ lbrace :: b ++ rbrace :: d ∧ d.all isPySpace

/-! ## Prompt construction (`build_prompt`, src/daos/infer_equations_llama_mpi.py:80-85)

`PROMPT_TEMPLATE` is `PROMPT_TEMPLATE_v2` (src/daos/math_prompt.py:116-141),
transcribed here split at its `schema` and `latex_raw` placeholders;
`.format` substitutes `json.dumps(PURE_MATH_JSON_SCHEMA, ensure_ascii=False)`
and the cleaned LaTeX string (the template contains no doubled braces, so
`.format` changes nothing else). -/
def PROMPT_SEG1 : String :=
  "You are a Bourbaki-style pure mathematician: formal and entirely abstract. Analyze one LaTeX expression and return strict JSON that satisfies the schema. No text outside JSON.\n\nINPUT\n- latex_raw: the raw LaTeX string of a single expression\n\nTASKS (pure math; no domain flavor)\n1) math_keywords — ≤10 mathematical keywords, most→least important.\n2) math_sentence — Single natural-language sentence description\n3) katex — KaTeX representation (fix punctuation/braces; do NOT wrap in $...$ or \\[...\\]).\n4) equiv_form_1 — Algebraically equivalent form with \"name_of_trafo\" and \"assumptions\".\n5) equiv_form_2 — A different algebraically equivalent form with its own \"name_of_trafo\" and \"assumptions\".\n\nOUTPUT RULES\n- Output MUST be a single JSON object and nothing else.\n- All keys/strings use double quotes.\n- Escape backslashes in JSON strings (e.g., \"\\\\frac\").\n- Keep LaTeX inside strings; do not add $...$ or \\[...\\].\n\nJSON SCHEMA (informative, do not echo)\n"

def PROMPT_SEG2 : String :=
  "\n\nReturn only the JSON object.\n\nLaTeX expression (raw):\n"

def PROMPT_SEG3 : String := "\n"

def build_prompt (latex_raw : String) : String :=
  PROMPT_SEG1 ++ jsonDumps PURE_MATH_JSON_SCHEMA ++ PROMPT_SEG2 ++ latex_raw ++ PROMPT_SEG3

/-! ## Model of `katex_hygiene` (src/daos/infer_equations_llama_mpi.py:74-77)

`re.sub(r"\\label\{[^}]*\}", "", s)` followed by `.strip().rstrip(",")`. -/
def labelPat : List Char := '\\' :: 'l' :: 'a' :: 'b' :: 'e' :: 'l' :: [lbrace]

/-- Left-to-right scan of `re.sub`: where the pattern matches (including a
closing brace), drop the match and continue after it; otherwise emit one
character and advance. -/
def removeLabelAux : Nat → List Char → List Char
  | 0, cs => cs
  | fuel+1, cs =>
    if labelPat.isPrefixOf cs then
      let rest := cs.drop 7
      let inside := rest.takeWhile (fun c => c ≠ rbrace)
      if inside.length < rest.length then
        removeLabelAux fuel (rest.drop (inside.length + 1))
      else
        match cs with
        | [] => []
        | c :: t => c :: removeLabelAux fuel t
    else
      match cs with
      | [] => []
      | c :: t => c :: removeLabelAux fuel t

def removeLabel (cs : List Char) : List Char := removeLabelAux cs.length cs

/-- Python `str.strip()` (ASCII whitespace model). -/
def pyStrip (cs : List Char) : List Char :=
  ((cs.dropWhile isPySpace).reverse.dropWhile isPySpace).reverse

def katex_hygiene (s : String) : String :=
  String.mk (((pyStrip (removeLabel s.data)).reverse.dropWhile (fun c => c = ',')).reverse)

/-! ## Model of `llama_server_infer` (src/daos/infer_equations_llama_mpi.py:109-203)

The HTTP backend is an oracle mapping the attempt number to what that
attempt observes. -/
/-- One attempt's observation: `connFail e` models `requests.post`
raising; `resp status errMsg payload content` models a response, where
`errMsg` is `resp.json().get("error", \x7b\x7d).get("message", "")` (empty
when the body is unparseable), `payload` is the diagnostic
(`resp.json()` or `resp.text`) attached to fatal errors, and `content`
is `choices[0].message.content` when the body has that shape. -/
inductive Attempt where
  | connFail (e : String)
  | resp (status : Nat) (errMsg : String) (payload : String) (content : Option String)

def strContains (pat : List Char) : List Char → Bool
  | [] => pat.isEmpty
  | c :: t => pat.isPrefixOf (c :: t) || strContains pat t

/-- Python `"Loading model" in msg`. -/
def isLoadingMsg (msg : String) : Bool :=
  strContains "Loading model".data msg.data

/-- The two retried conditions of the source: a connection-level failure,
or HTTP 503 whose error message contains "Loading model". -/
def isTransient : Attempt → Bool
  | .connFail _ => true
  | .resp status errMsg _ _ => status == 503 && isLoadingMsg errMsg

/-- The possible ends of `llama_server_infer`: the returned content, the
two retry-exhaustion `RuntimeError`s (each naming the url and the attempt
count), the hard non-200 `RuntimeError` (carrying the diagnostic
payload), the malformed-200 `RuntimeError`s, and the defensive raise
after the loop. -/
inductive InferOutcome where
  | content (s : String)
  | connExhausted (url : String) (attempts : Nat) (e : String)
  | loadingExhausted (url : String) (attempts : Nat)
  | httpError (status : Nat) (payload : String)
  | badResponse (payload : String)
  | defensiveExhausted

/-- The retry loop, returning the outcome paired with the number of
`time.sleep` delays performed.  `attempt` counts from 1; `fuel` is the
number of loop iterations left. -/
def inferAux (url : String) (responses : Nat → Attempt) (maxAttempts : Nat) :
    Nat → Nat → Nat → InferOutcome × Nat
  | _, 0, sleeps => (.defensiveExhausted, sleeps)
  | attempt, fuel+1, sleeps =>
    match responses attempt with
    | .connFail e =>
      if attempt = maxAttempts then (.connExhausted url maxAttempts e, sleeps)
      else inferAux url responses maxAttempts (attempt+1) fuel (sleeps+1)
    | .resp status errMsg payload content =>
      if status = 503 ∧ isLoadingMsg errMsg = true then
        if attempt = maxAttempts then (.loadingExhausted url maxAttempts, sleeps)
        else inferAux url responses maxAttempts (attempt+1) fuel (sleeps+1)
      else if status ≠ 200 then (.httpError status payload, sleeps)
      else
        match content with
        | some c => (.content c, sleeps)
        | none => (.badResponse payload, sleeps)

/-- The ceiling `max_attempts = 60` (src/daos/infer_equations_llama_mpi.py:131). -/
def max_attempts : Nat := 60

def llama_server_infer (url : String) (responses : Nat → Attempt) : InferOutcome × Nat :=
  inferAux url responses max_attempts 1 max_attempts 0

/-! ## Row-sharded processing loop
(`process_file_row_sharded`, src/daos/infer_equations_llama_mpi.py:210-340)

The parquet frame becomes `rows : Nat → Row` with `total_rows` entries
(positions in the already-filtered frame, which is what `df.iloc` and
`len(df)` index); the inference backend becomes a per-row oracle (`.err`
models `llama_server_infer` raising, which the loop catches and skips).
The resume offset is passed in as the value the checkpoint read
produced. -/
structure Row where
  paper_id : String
  equation_id : String
  content_resolved : String

inductive RowInfer where
  | ok (content : String)
  | err

/-- One buffered output record (`rec`, lines 295-322).  `structured`
holds the validated `parsed` object when `parse_strict_json` succeeded;
all structured columns (`math_keywords`, `math_sentence`, `katex`,
`equiv_form_1`, `equiv_form_2`, `output_json`) are `json.dumps`
projections of it, so its absence models exactly the record without
structured fields. -/
structure Record where
  paper_id : String
  equation_id : String
  latex_raw : String
  latex_clean : String
  llm_raw_output : String
  global_row : Nat
  structured : Option Json

/-- The loop state: the in-memory buffer and `count`, plus the persisted
artifacts as traces — `outFile` is the contents of the per-rank parquet
(`_flush` merges by concatenation), `flushes` counts flushes that
actually merged records (`_flush` is a no-op on an empty list), and
`ckptWrites` records every `_write_rank_ckpt` call as
(value written, flushes completed at that moment). -/
structure LoopState where
  buffer : List Record
  count : Nat
  outFile : List Record
  flushes : Nat
  ckptWrites : List (Nat × Nat)

def initState : LoopState := ⟨[], 0, [], 0, []⟩

/-- Model of `_flush` (lines 345-355): no-op on an empty record list, otherwise
read-existing, concatenate, rewrite. -/
def do_flush (outFile : List Record) (flushes : Nat) (records : List Record) :
    List Record × Nat :=
  if records.isEmpty then (outFile, flushes) else (outFile ++ records, flushes + 1)

/-- Python truthiness of a decoded JSON value (`if parsed:`). -/
def pyTruthy : Json → Bool
  | .null => false
  | .bool b => b
  | .num n => n != 0
  | .str s => !s.isEmpty
  | .arr xs => !xs.isEmpty
  | .obj kvs => !kvs.isEmpty

/-- Lines 324-332: append the record, bump `count`, and on
`count % flush_every == 0` flush and write the checkpoint as
`count // flush_every`. -/
def push_record (flush_every : Nat) (st : LoopState) (record : Record) : LoopState :=
  let buffer := st.buffer ++ [record]
  let count := st.count + 1
  if count % flush_every == 0 then
    let fl := do_flush st.outFile st.flushes buffer
    { buffer := [], count := count, outFile := fl.1, flushes := fl.2,
      ckptWrites := st.ckptWrites ++ [(count / flush_every, fl.2)] }
  else
    { st with buffer := buffer, count := count }

/-- The body of the row loop (lines 266-332) for one assigned row. -/
def process_row (ctx flush_every : Nat) (st : LoopState) (global_row_index : Nat)
    (row : Row) (o : RowInfer) : LoopState :=
  let latex_raw := row.content_resolved
  let latex_clean := katex_hygiene latex_raw
  let prompt := build_prompt latex_clean
  let max_prompt_chars := ctx * 4
  if prompt.length > max_prompt_chars then st
  else
    match o with
    | .err => st
    | .ok content =>
      let parsed : Option Json :=
        match parse_strict_json content with
        | .ok j => some j
        | _ => none
      let structured : Option Json :=
        match parsed with
        | some j => if pyTruthy j then some j else none
        | none => none
      push_record flush_every st
        ⟨row.paper_id, row.equation_id, latex_raw, latex_clean, content,
         global_row_index, structured⟩

def run_rows (ctx flush_every : Nat) (rows : Nat → Row) (oracle : Nat → RowInfer)
    (st : LoopState) (idxs : List Nat) : LoopState :=
  idxs.foldl (fun s i => process_row ctx flush_every s i (rows i) (oracle i)) st

/-- The threshold `flush_every = 20` (line 264). -/
def flush_every_default : Nat := 20

/-- Whole-batch processing for one worker: the loop over `my_rows`, then
the final flush and the final checkpoint write of `len(my_rows)`
(lines 334-336). -/
def process_file_row_sharded
    (ctx flush_every world_rank world_size start_offset total_rows : Nat)
    (rows : Nat → Row) (oracle : Nat → RowInfer) : LoopState :=
  let mr := myRows world_rank world_size start_offset total_rows
  let st := run_rows ctx flush_every rows oracle initState mr
  let fl := do_flush st.outFile st.flushes st.buffer
  { buffer := [], count := st.count, outFile := fl.1, flushes := fl.2,
    ckptWrites := st.ckptWrites ++ [(mr.length, fl.2)] }

/-! ## Checkpoint files -/
inductive CkptFile where
  | absent
  | content (s : String)

def jlookup (kvs : List (String × Json)) (k : String) : Option Json :=
  match kvs with
  | [] => none
  | (k1, v) :: rest => if k1 == k then some v else jlookup rest k

/-- Python `int(x)` on a decoded JSON value: numbers truncate (already
truncated by the parser model), booleans coerce, strings parse with
optional sign and surrounding whitespace, anything else raises.  Model
restriction: no underscore separators in numeric strings. -/
def pyIntOfStr (s : String) : Option Int :=
  let cs := pyStrip s.data
  let signed : Bool × List Char := match cs with
    | '-' :: t => (true, t)
    | '+' :: t => (false, t)
    | _ => (false, cs)
  if signed.2.isEmpty || !(signed.2.all isDigitCh) then none
  else some (if signed.1 then -(natOfDigits signed.2 : Int) else (natOfDigits signed.2 : Int))

def pyToInt : Json → Option Int
  | .num n => some n
  | .bool b => some (cond b 1 0)
  | .str s => pyIntOfStr s
  | _ => none

/-- The checkpoint read (src/daos/infer_equations_llama_mpi.py:245-251):
`int(json.loads(ckpt_path.read_text()).get("row_offset", 0))` if the file
exists, with any exception mapped to 0; 0 if the file does not exist. -/
def read_rank_ckpt : CkptFile → Int
  | .absent => 0
  | .content s =>
    match jsonLoads s with
    | none => 0
    | some (.obj kvs) =>
      match jlookup kvs "row_offset" with
      | none => 0
      | some v => (pyToInt v).getD 0
    | some _ => 0

/-- Model of `_write_rank_ckpt` (lines 358-359):
`json.dumps(\x7b"row_offset": offset\x7d, ensure_ascii=False)`. -/
def write_rank_ckpt (offset : Nat) : String :=
  jsonDumps (.obj [("row_offset", .num offset)])

/-! ## Checkpoint-trace invariant of the processing loop -/
/-- Between rows: `flushes` and `buffer` track `count`, and the
checkpoint-write trace so far is `(1,1), (2,2), ..., (flushes, flushes)` —
each interim write recorded the flush-cycle count at the moment it
happened. -/
def Inv (f : Nat) (st : LoopState) : Prop :=
  st.flushes = st.count / f ∧
  st.buffer.length = st.count % f ∧
  st.ckptWrites = (List.range st.flushes).map (fun k => (k + 1, k + 1))

/-! ## Concrete-run helper -/
/-- The record the loop buffers for row `i` when the prompt fits and the
inference call returned `cont i`. -/
def mkRecord (rows : Nat → Row) (cont : Nat → String) (i : Nat) : Record :=
  ⟨(rows i).paper_id, (rows i).equation_id, (rows i).content_resolved,
   katex_hygiene (rows i).content_resolved, cont i, i,
   match parse_strict_json (cont i) with
   | .ok j => if pyTruthy j then some j else none
   | .noJson => none
   | .decodeError => none
   | .schemaViolation _ => none⟩

/-- A fixed demonstration row/oracle pair for concrete runs: every row
carries LaTeX `"x"`, every inference call returns `"out"` (which fails
validation, so the record is kept without structured fields — irrelevant
to the sharding and checkpoint arithmetic). -/
def demoRow : Row := ⟨"p", "e", "x"⟩

def demoRows : Nat → Row := fun _ => demoRow

def demoOracle : Nat → RowInfer := fun _ => RowInfer.ok "out"

def demoCont : Nat → String := fun _ => "out"

/-- A sample valid instance of the fixed schema (used as concrete input
for the validator claims), and its decoded value. -/
def sampleInstance : String :=
  "\x7b\"input\": \x7b\"latex_raw\": \"x\"\x7d, \"analysis\": \x7b\"math_keywords\": [\"k\"], \"math_sentence\": \"s\", \"katex\": \"k\"\x7d, \"equivalents\": \x7b\"equiv_form_1\": \x7b\"name_of_trafo\": \"t\", \"assumptions\": [], \"latex\": \"l\"\x7d, \"equiv_form_2\": \x7b\"name_of_trafo\": \"t\", \"assumptions\": [], \"latex\": \"l\"\x7d\x7d\x7d"

def sampleJson : Json :=
  .obj [("input", .obj [("latex_raw", .str "x")]),
        ("analysis", .obj [("math_keywords", .arr [.str "k"]),
                           ("math_sentence", .str "s"), ("katex", .str "k")]),
        ("equivalents", .obj
          [("equiv_form_1", .obj [("name_of_trafo", .str "t"),
                                  ("assumptions", .arr []), ("latex", .str "l")]),
           ("equiv_form_2", .obj [("name_of_trafo", .str "t"),
                                  ("assumptions", .arr []), ("latex", .str "l")])])]

/-! ## Lemmas and claim theorems -/

theorem ceil_div_lt_iff (d st k : Nat) (hst : 1 ≤ st) :
    k < (d + st - 1) / st ↔ st * k < d := by
  have hexp : (k + 1) * st = st * k + st := by ring
  constructor
  · intro h
    have h1 : (k + 1) * st ≤ d + st - 1 := (Nat.le_div_iff_mul_le hst).1 h
    omega
  · intro h
    have h1 : (k + 1) * st ≤ d + st - 1 := by omega
    exact (Nat.le_div_iff_mul_le hst).2 h1

/-- Membership in `pyRange`: `i ∈ range(s, e, st)` iff `s ≤ i < e` and
`st` divides `i - s`. -/
theorem mem_pyRange {s e st : Nat} (hst : 1 ≤ st) (i : Nat) :
    i ∈ pyRange s e st ↔ s ≤ i ∧ i < e ∧ st ∣ (i - s) := by
  unfold pyRange
  rw [List.mem_range']
  constructor
  · rintro ⟨k, hk, rfl⟩
    have hlt : st * k < e - s := (ceil_div_lt_iff (e - s) st k hst).1 hk
    refine ⟨Nat.le_add_right _ _, by omega, k, by omega⟩
  · rintro ⟨hs, he, k, hk⟩
    refine ⟨k, ?_, by omega⟩
    exact (ceil_div_lt_iff (e - s) st k hst).2 (by omega)

theorem propAll_mono {kvs : List (String × Json)} {k : String} {p q : Json → Bool}
    (hpq : ∀ j, p j = true → q j = true) (h : propAll kvs k p = true) :
    propAll kvs k q = true := by
  simp only [propAll, List.all_eq_true] at h ⊢
  intro kv hkv
  have h0 := h kv hkv
  cases hb : (kv.1 != k)
  · have hp : p kv.2 = true := by simpa [hb] using h0
    simp [hpq _ hp]
  · simp

theorem vEquivForm_req_extra {j : Json} (h : vEquivForm j = true) :
    reqEquivForm j = true ∧ extraEquivForm j = true := by
  cases j <;> simp_all [vEquivForm, reqEquivForm, extraEquivForm]

theorem vInput_req_extra {j : Json} (h : vInput j = true) :
    reqInput j = true ∧ extraInput j = true := by
  cases j <;> simp_all [vInput, reqInput, extraInput]

theorem vAnalysis_req_extra {j : Json} (h : vAnalysis j = true) :
    reqAnalysis j = true ∧ extraAnalysis j = true := by
  cases j <;> simp_all [vAnalysis, reqAnalysis, extraAnalysis]

theorem vEquivalents_req_extra {j : Json} (h : vEquivalents j = true) :
    reqEquivalents j = true ∧ extraEquivalents j = true := by
  cases j with
  | obj kvs =>
    simp only [vEquivalents, Bool.and_eq_true] at h
    obtain ⟨⟨⟨⟨h1, h2⟩, h3⟩, h4⟩, h5⟩ := h
    constructor
    · simp only [reqEquivalents, Bool.and_eq_true]
      exact ⟨⟨⟨h1, h2⟩, propAll_mono (fun j hj => (vEquivForm_req_extra hj).1) h4⟩,
             propAll_mono (fun j hj => (vEquivForm_req_extra hj).1) h5⟩
    · simp only [extraEquivalents, Bool.and_eq_true]
      exact ⟨⟨h3, propAll_mono (fun j hj => (vEquivForm_req_extra hj).2) h4⟩,
             propAll_mono (fun j hj => (vEquivForm_req_extra hj).2) h5⟩
  | null => simp_all [vEquivalents]
  | bool b => simp_all [vEquivalents]
  | num n => simp_all [vEquivalents]
  | str s => simp_all [vEquivalents]
  | arr xs => simp_all [vEquivalents]

/-- Validation against the fixed schema implies: all required keys
present, and no extra keys, at every object level. -/
theorem vPureMath_req_extra {j : Json} (h : vPureMath j = true) :
    reqPureMath j = true ∧ extraPureMath j = true := by
  cases j with
  | obj kvs =>
    simp only [vPureMath, Bool.and_eq_true] at h
    obtain ⟨⟨⟨⟨⟨⟨h1, h2⟩, h3⟩, h4⟩, h5⟩, h6⟩, h7⟩ := h
    constructor
    · simp only [reqPureMath, Bool.and_eq_true]
      exact ⟨⟨⟨⟨⟨h1, h2⟩, h3⟩, propAll_mono (fun j hj => (vInput_req_extra hj).1) h5⟩,
              propAll_mono (fun j hj => (vAnalysis_req_extra hj).1) h6⟩,
             propAll_mono (fun j hj => (vEquivalents_req_extra hj).1) h7⟩
    · simp only [extraPureMath, Bool.and_eq_true]
      exact ⟨⟨⟨h4, propAll_mono (fun j hj => (vInput_req_extra hj).2) h5⟩,
              propAll_mono (fun j hj => (vAnalysis_req_extra hj).2) h6⟩,
             propAll_mono (fun j hj => (vEquivalents_req_extra hj).2) h7⟩
  | null => simp_all [vPureMath]
  | bool b => simp_all [vPureMath]
  | num n => simp_all [vPureMath]
  | str s => simp_all [vPureMath]
  | arr xs => simp_all [vPureMath]

theorem exists_of_findIdx? {α : Type} {l : List α} {p : α → Bool} {i : Nat}
    (h : l.findIdx? p = some i) : ∃ x ∈ l, p x = true := by
  rw [List.findIdx?_eq_some_iff_getElem] at h
  obtain ⟨hi, hp, _⟩ := h
  exact ⟨l[i], List.getElem_mem hi, hp⟩

theorem stripTrailingWs_decomp (cs : List Char) :
    cs = stripTrailingWs cs ++ (cs.reverse.takeWhile isPySpace).reverse ∧
    ∀ c ∈ (cs.reverse.takeWhile isPySpace).reverse, isPySpace c = true := by
  constructor
  · conv_lhs => rw [← List.reverse_reverse cs,
      ← List.takeWhile_append_dropWhile isPySpace cs.reverse]
    rw [List.reverse_append]
    rfl
  · intro c hc
    rw [List.mem_reverse] at hc
    exact List.mem_takeWhile_imp hc

theorem stripTrailingWs_eq_self {cs : List Char} {c : Char}
    (hlast : cs.getLast? = some c) (hc : isPySpace c = false) :
    stripTrailingWs cs = cs := by
  have hdecomp : cs.dropLast ++ [c] = cs := List.dropLast_append_getLast? c hlast
  unfold stripTrailingWs
  conv_lhs => rw [← hdecomp]
  rw [List.reverse_append, List.reverse_singleton, List.singleton_append,
    List.dropWhile_cons]
  simp [hc, hdecomp]

/-- If the extraction regex matches at all, the text has an ending
`{`...`}` object shape. -/
theorem hasEndingObj_of_extract {cs g : List Char}
    (h : regexExtract cs = some g) : HasEndingObj cs := by
  unfold regexExtract at h
  by_cases hcond : (stripTrailingWs cs).getLast? = some rbrace
  · rw [if_pos hcond, Option.map_eq_some'] at h
    obtain ⟨i, hidx, _⟩ := h
    obtain ⟨x, hx, hpx⟩ := exists_of_findIdx? hidx
    have hxl : x = lbrace := by simpa using hpx
    subst hxl
    obtain ⟨a, b, hab⟩ := List.append_of_mem hx
    obtain ⟨hdecomp, hws⟩ := stripTrailingWs_decomp cs
    have htfull : stripTrailingWs cs = (a ++ lbrace :: b) ++ [rbrace] := by
      have h2 := List.dropLast_append_getLast? rbrace hcond
      rw [← h2, hab]
    refine ⟨a, b, (cs.reverse.takeWhile isPySpace).reverse, ?_, ?_⟩
    · conv_lhs => rw [hdecomp, htfull]
      simp
    · rw [List.all_eq_true]
      exact hws
  · rw [if_neg hcond] at h
    exact absurd h (by simp)

/-- If the text has no ending `{`...`}` object shape, the extraction
regex cannot match. -/
theorem extract_eq_none_of_not_hasEndingObj {cs : List Char}
    (h : ¬ HasEndingObj cs) : regexExtract cs = none := by
  match hx : regexExtract cs with
  | none => rfl
  | some g => exact absurd (hasEndingObj_of_extract hx) h

/-- Computation of the extraction on a text `prefix ++ instance` with no
`{` in the prefix and the instance starting with `{` and ending with `}`:
the match is exactly the instance. -/
theorem extract_prefix_obj {p v : List Char}
    (hp : lbrace ∉ p) (hv1 : v.head? = some lbrace) (hv2 : v.getLast? = some rbrace) :
    regexExtract (p ++ v) = some v := by
  match v, hv1 with
  | c :: v2, hv1 =>
    have hc : c = lbrace := by simpa using hv1
    subst hc
    match v2, hv2 with
    | [], hv2 => exact absurd (by simpa using hv2) (by decide)
    | w :: ws, hv2 =>
      have hvne : (lbrace :: w :: ws) ≠ ([] : List Char) := by simp
      have hlastpv : (p ++ lbrace :: w :: ws).getLast? = some rbrace := by
        rw [List.getLast?_append_of_ne_nil _ hvne]
        exact hv2
      have hstrip : stripTrailingWs (p ++ lbrace :: w :: ws) = p ++ lbrace :: w :: ws :=
        stripTrailingWs_eq_self hlastpv (by decide)
      have hdrop : (p ++ lbrace :: w :: ws).dropLast = p ++ lbrace :: (w :: ws).dropLast := by
        rw [List.dropLast_append_cons]
        simp
      have hfind : (p ++ lbrace :: (w :: ws).dropLast).findIdx? (fun x => x = lbrace)
          = some p.length := by
        rw [List.findIdx?_append]
        have hpnone : p.findIdx? (fun x => x = lbrace) = none := by
          rw [List.findIdx?_eq_none_iff]
          intro x hx
          simp only [decide_eq_false_iff_not]
          intro hxe
          exact hp (hxe ▸ hx)
        rw [hpnone]
        simp [List.findIdx?_cons]
      unfold regexExtract
      rw [hstrip, if_pos hlastpv, hdrop, hfind]
      simp [List.drop_left]

/-! ## Helper lemmas about the loop body -/
set_option maxRecDepth 8000 in
theorem PROMPT_SEG1_length : PROMPT_SEG1.length = 957 := by decide

set_option maxRecDepth 8000 in
theorem schema_dump_length : (jsonDumps PURE_MATH_JSON_SCHEMA).length = 1308 := by decide

theorem PROMPT_SEG2_length : PROMPT_SEG2.length = 56 := by decide

theorem PROMPT_SEG3_length : PROMPT_SEG3.length = 1 := by decide

/-- The built prompt's character count is a constant plus the length of
the LaTeX string inserted. -/
theorem build_prompt_length (latex : String) :
    (build_prompt latex).length = 2322 + latex.length := by
  unfold build_prompt
  rw [String.length_append, String.length_append, String.length_append,
    String.length_append, PROMPT_SEG1_length, schema_dump_length,
    PROMPT_SEG2_length, PROMPT_SEG3_length]
  omega

theorem process_row_skip {ctx f i : Nat} {st : LoopState} {row : Row} {o : RowInfer}
    (h : (build_prompt (katex_hygiene row.content_resolved)).length > ctx * 4) :
    process_row ctx f st i row o = st := by
  simp [process_row, h]

theorem process_row_err {ctx f i : Nat} {st : LoopState} {row : Row}
    (h : ¬ (build_prompt (katex_hygiene row.content_resolved)).length > ctx * 4) :
    process_row ctx f st i row .err = st := by
  simp [process_row, h]

theorem process_row_ok_eq {ctx f i : Nat} {st : LoopState} {row : Row} {content : String}
    (h : ¬ (build_prompt (katex_hygiene row.content_resolved)).length > ctx * 4) :
    process_row ctx f st i row (.ok content) =
      push_record f st
        ⟨row.paper_id, row.equation_id, row.content_resolved,
         katex_hygiene row.content_resolved, content, i,
         match parse_strict_json content with
         | .ok j => if pyTruthy j then some j else none
         | .noJson => none
         | .decodeError => none
         | .schemaViolation _ => none⟩ := by
  cases hp : parse_strict_json content <;> simp [process_row, h, hp]

/-! ## Retry-loop lemmas -/
theorem isTransient_resp {status : Nat} {errMsg payload : String} {content : Option String}
    (h : isTransient (.resp status errMsg payload content) = true) :
    status = 503 ∧ isLoadingMsg errMsg = true := by
  simpa [isTransient] using h

/-- Skipping a run of transient attempts: each one sleeps once and moves
to the next attempt, as long as the ceiling is not reached. -/
theorem inferAux_skip_transient (url : String) (responses : Nat → Attempt)
    (maxAttempts : Nat) (j : Nat) :
    ∀ (a fuel sleeps : Nat),
      (∀ i, a ≤ i → i < a + j → isTransient (responses i) = true) →
      a + j ≤ maxAttempts → j ≤ fuel →
      inferAux url responses maxAttempts a fuel sleeps =
        inferAux url responses maxAttempts (a + j) (fuel - j) (sleeps + j) := by
  induction j with
  | zero => intro a fuel sleeps _ _ _; simp
  | succ j ih =>
    intro a fuel sleeps htr hmax hfuel
    have hexfu : ∃ fu, fuel = fu + 1 := ⟨fuel - 1, by omega⟩
    obtain ⟨fu, rfl⟩ := hexfu
    have hamax : a ≠ maxAttempts := by omega
    have hstep : inferAux url responses maxAttempts a (fu + 1) sleeps =
        inferAux url responses maxAttempts (a + 1) fu (sleeps + 1) := by
      have hta : isTransient (responses a) = true := htr a (Nat.le_refl a) (by omega)
      cases hra : responses a with
      | connFail e =>
        simp [inferAux, hra, hamax]
      | resp status errMsg payload content =>
        rw [hra] at hta
        obtain ⟨h503, hload⟩ := isTransient_resp hta
        subst h503
        simp [inferAux, hra, hload, hamax]
    rw [hstep, ih (a + 1) fu (sleeps + 1)
      (fun i h1 h2 => htr i (by omega) (by omega)) (by omega) (by omega)]
    congr 1 <;> omega

theorem inv_init (f : Nat) : Inv f initState := by
  simp [Inv, initState]

theorem inv_push {f : Nat} (hf : 1 ≤ f) {st : LoopState} (h : Inv f st) (r : Record) :
    Inv f (push_record f st r) := by
  obtain ⟨h1, h2, h3⟩ := h
  by_cases hmod : (st.count + 1) % f = 0
  · have hdvd : f ∣ st.count + 1 := Nat.dvd_of_mod_eq_zero hmod
    have hdiv : (st.count + 1) / f = st.count / f + 1 := Nat.succ_div_of_dvd hdvd
    have hpush : push_record f st r =
        { buffer := [], count := st.count + 1,
          outFile := st.outFile ++ (st.buffer ++ [r]), flushes := st.flushes + 1,
          ckptWrites := st.ckptWrites ++ [((st.count + 1) / f, st.flushes + 1)] } := by
      simp [push_record, hmod, do_flush]
    rw [hpush]
    refine ⟨by simp [hdiv, h1], by simp [hmod], ?_⟩
    simp only []
    rw [h3, List.range_succ, List.map_append, hdiv, h1]
    simp
  · have hndvd : ¬ f ∣ st.count + 1 := by
      intro hd
      exact hmod (Nat.mod_eq_zero_of_dvd hd)
    have hdiv : (st.count + 1) / f = st.count / f := Nat.succ_div_of_not_dvd hndvd
    have hmodsucc : (st.count + 1) % f = st.count % f + 1 := by
      by_cases hf1 : f = 1
      · exact absurd (by rw [hf1]; exact Nat.mod_one _) hmod
      · have h1f : 1 % f = 1 := Nat.mod_eq_of_lt (by omega)
        have hlt : st.count % f < f := Nat.mod_lt _ (by omega)
        rcases Nat.lt_or_ge (st.count % f + 1) f with hc | hc
        · rw [Nat.add_mod, h1f]
          exact Nat.mod_eq_of_lt hc
        · exfalso
          apply hmod
          have hceq : st.count % f + 1 = f := by omega
          rw [Nat.add_mod, h1f, hceq, Nat.mod_self]
    have hpush : push_record f st r =
        { st with buffer := st.buffer ++ [r], count := st.count + 1 } := by
      simp [push_record, hmod]
    rw [hpush]
    exact ⟨by simp [hdiv, h1], by simp [hmodsucc, h2], by simp [h3]⟩

theorem inv_process_row {ctx f i : Nat} (hf : 1 ≤ f) {st : LoopState} {row : Row}
    {o : RowInfer} (h : Inv f st) : Inv f (process_row ctx f st i row o) := by
  by_cases hl : (build_prompt (katex_hygiene row.content_resolved)).length > ctx * 4
  · rw [process_row_skip hl]
    exact h
  · cases o with
    | ok content =>
      rw [process_row_ok_eq hl]
      exact inv_push hf h _
    | err =>
      rw [process_row_err hl]
      exact h

theorem inv_run {ctx f : Nat} (hf : 1 ≤ f) (rows : Nat → Row) (oracle : Nat → RowInfer)
    (idxs : List Nat) :
    ∀ {st : LoopState}, Inv f st → Inv f (run_rows ctx f rows oracle st idxs) := by
  induction idxs with
  | nil => intro st h; exact h
  | cons i t ih =>
    intro st h
    exact ih (inv_process_row hf h)

theorem count_push (f : Nat) (st : LoopState) (r : Record) :
    (push_record f st r).count = st.count + 1 := by
  simp only [push_record]
  split <;> rfl

theorem count_process_row_le (ctx f i : Nat) (st : LoopState) (row : Row) (o : RowInfer) :
    (process_row ctx f st i row o).count ≤ st.count + 1 := by
  by_cases hl : (build_prompt (katex_hygiene row.content_resolved)).length > ctx * 4
  · rw [process_row_skip hl]
    omega
  · cases o with
    | ok content =>
      rw [process_row_ok_eq hl, count_push]
    | err =>
      rw [process_row_err hl]
      omega

theorem count_run_le (ctx f : Nat) (rows : Nat → Row) (oracle : Nat → RowInfer)
    (idxs : List Nat) :
    ∀ st : LoopState, (run_rows ctx f rows oracle st idxs).count ≤ st.count + idxs.length := by
  induction idxs with
  | nil => intro st; simp [run_rows]
  | cons i t ih =>
    intro st
    have h1 := ih (process_row ctx f st i (rows i) (oracle i))
    have h2 := count_process_row_le ctx f i st (rows i) (oracle i)
    have h3 : run_rows ctx f rows oracle st (i :: t) =
        run_rows ctx f rows oracle (process_row ctx f st i (rows i) (oracle i)) t := rfl
    rw [h3]
    simp only [List.length_cons]
    omega

theorem run_rows_all_ok (ctx f : Nat) (rows : Nat → Row) (oracle : Nat → RowInfer)
    (cont : Nat → String) (idxs : List Nat)
    (hlen : ∀ i ∈ idxs,
      ¬ (build_prompt (katex_hygiene (rows i).content_resolved)).length > ctx * 4)
    (hok : ∀ i ∈ idxs, oracle i = .ok (cont i)) :
    ∀ st : LoopState, run_rows ctx f rows oracle st idxs =
      idxs.foldl (fun s i => push_record f s (mkRecord rows cont i)) st := by
  induction idxs with
  | nil => intro st; rfl
  | cons i t ih =>
    intro st
    have hstep : process_row ctx f st i (rows i) (oracle i) =
        push_record f st (mkRecord rows cont i) := by
      rw [hok i (List.mem_cons_self i t), process_row_ok_eq (hlen i (List.mem_cons_self i t))]
      rfl
    have h3 : run_rows ctx f rows oracle st (i :: t) =
        run_rows ctx f rows oracle (process_row ctx f st i (rows i) (oracle i)) t := rfl
    rw [h3, hstep, ih (fun j hj => hlen j (List.mem_cons_of_mem i hj))
      (fun j hj => hok j (List.mem_cons_of_mem i hj))]
    rfl

theorem demo_hlen (ctx : Nat) (hctx : 2323 ≤ ctx * 4) : ∀ i : Nat,
    ¬ (build_prompt (katex_hygiene (demoRows i).content_resolved)).length > ctx * 4 := by
  intro i
  have hx : katex_hygiene (demoRows i).content_resolved = "x" := by
    show katex_hygiene "x" = "x"
    decide
  rw [hx, build_prompt_length]
  have : ("x" : String).length = 1 := by decide
  omega

/-! ## Claims -/
/-- C3: for every batch size `N ≥ 0` and world size `W ≥ 1`, the
assigned-row sequences computed with `resumeOffset = 0` cover
`{0, ..., N-1}` exactly: every assigned index is below `N`, and every
index below `N` belongs to exactly one worker `g < W`. -/
theorem C3_shard_coverage (N W : Nat) (hW : 1 ≤ W) :
    (∀ g, g < W → ∀ i ∈ myRows g W 0 N, i < N) ∧
    (∀ i, i < N → ∃! g, g < W ∧ i ∈ myRows g W 0 N) := by
  have hmem : ∀ g i : Nat, i ∈ myRows g W 0 N ↔ g ≤ i ∧ i < N ∧ W ∣ (i - g) := by
    intro g i
    unfold myRows
    rw [show g + 0 * W = g by ring]
    exact mem_pyRange hW i
  constructor
  · intro g _ i hi
    exact ((hmem g i).1 hi).2.1
  · intro i hi
    refine ⟨i % W, ⟨Nat.mod_lt _ (by omega), ?_⟩, ?_⟩
    · rw [hmem]
      refine ⟨Nat.mod_le i W, hi, ?_⟩
      have hdm := Nat.div_add_mod i W
      exact ⟨i / W, by omega⟩
    · rintro g ⟨hg, hgi⟩
      rw [hmem] at hgi
      obtain ⟨hle, _, m, hm⟩ := hgi
      have hieq : i = g + W * m := by omega
      rw [hieq, Nat.add_mul_mod_self_left, Nat.mod_eq_of_lt hg]

/-- Witness for C3 at `N = 7`, `W = 3`. -/
theorem C3_shard_coverage_witness :
    (∀ g, g < 3 → ∀ i ∈ myRows g 3 0 7, i < 7) ∧
    (∀ i, i < 7 → ∃! g, g < 3 ∧ i ∈ myRows g 3 0 7) :=
  C3_shard_coverage 7 3 (by decide)

/-- C1 (code-bug evaluation): one worker (`g = 0`, `W = 1`), a 5-row
batch, `flush_every = 2`.  The worker processes its first two assigned
rows and flushes once: rows 0 and 1 are in the output file and the
checkpoint write recorded offset 1, the number of completed flush-cycles.
Restarting with that accurate `resumeOffset = 1` recomputes the assigned
rows as `range(0 + 1*1, 5, 1) = [1, 2, 3, 4]`: row 1, already flushed, is
assigned again — the checkpoint is written in flush-cycle units
(`count // flush_every`) but consumed by the resume start
`g + offset * W` in per-worker-row units, so the claimed no-duplication
guarantee fails. -/
theorem C1_resume_reassigns_flushed_row :
    ((run_rows 10000 2 demoRows demoOracle initState
        ((myRows 0 1 0 5).take 2)).outFile.map (fun r => r.global_row)) = [0, 1] ∧
    (run_rows 10000 2 demoRows demoOracle initState
        ((myRows 0 1 0 5).take 2)).ckptWrites = [(1, 1)] ∧
    myRows 0 1 1 5 = [1, 2, 3, 4] ∧
    (1 : Nat) ∈ myRows 0 1 1 5 := by
  rw [run_rows_all_ok 10000 2 demoRows demoOracle demoCont ((myRows 0 1 0 5).take 2)
    (fun i _ => demo_hlen 10000 (by decide) i) (fun i _ => rfl) initState]
  decide

/-- C2 (code-bug evaluation): the spec's scenario.  Sharding a 7-row
batch over `W = 3` gives workers 0/1/2 the rows `[0,3,6]` / `[1,4]` /
`[2,5]`.  After worker 0 processes rows 0 and 3 with threshold 2 it has
flushed once and the checkpoint holds offset 1.  But recomputing worker
0's rows with `resumeOffset = 1` yields `range(0 + 1*3, 7, 3) = [3, 6]`,
not the claimed `[6]`: row 3 is reprocessed. -/
theorem C2_scenario_resume_mismatch :
    myRows 0 3 0 7 = [0, 3, 6] ∧
    myRows 1 3 0 7 = [1, 4] ∧
    myRows 2 3 0 7 = [2, 5] ∧
    (run_rows 10000 2 demoRows demoOracle initState
        ((myRows 0 3 0 7).take 2)).count = 2 ∧
    (run_rows 10000 2 demoRows demoOracle initState
        ((myRows 0 3 0 7).take 2)).ckptWrites = [(1, 1)] ∧
    myRows 0 3 1 7 = [3, 6] ∧
    myRows 0 3 1 7 ≠ [6] := by
  rw [run_rows_all_ok 10000 2 demoRows demoOracle demoCont ((myRows 0 3 0 7).take 2)
    (fun i _ => demo_hlen 10000 (by decide) i) (fun i _ => rfl) initState]
  decide

/-- C4 (counterexample): one worker, 3 assigned rows, all processed,
`flush_every = 20`.  No interim flush happens; the end-of-batch flush is
the only flush-cycle (so one flush-cycle has completed), yet the final
checkpoint write persists `len(my_rows) = 3` — a raw row count, not the
flush-cycle count 1.  The claim "each persisted value equals the number
of flush-cycles completed so far" is false at this input. -/
theorem C4_final_write_is_row_count :
    (process_file_row_sharded 10000 20 0 1 0 3 demoRows demoOracle).ckptWrites =
      [(3, 1)] ∧ (3 : Nat) ≠ 1 := by
  constructor
  · show (run_rows 10000 20 demoRows demoOracle initState (myRows 0 1 0 3)).ckptWrites ++
      [((myRows 0 1 0 3).length, _)] = [(3, 1)]
    rw [run_rows_all_ok 10000 20 demoRows demoOracle demoCont (myRows 0 1 0 3)
      (fun i _ => demo_hlen 10000 (by decide) i) (fun i _ => rfl) initState]
    decide
  · decide

/-- C4 (amended): during a batch, every interim checkpoint write persists
exactly the number of flush-cycles completed at that moment, and those
interim values are `1, 2, ...` in order; the final end-of-batch write
persists `len(my_rows)` — the raw count of assigned rows, which is not in
general the flush-cycle count; the full sequence of persisted values is
monotonically nondecreasing. -/
theorem C4_checkpoint_trace (ctx f g W off N : Nat) (hf : 1 ≤ f)
    (rows : Nat → Row) (oracle : Nat → RowInfer) :
    (∀ p ∈ (run_rows ctx f rows oracle initState (myRows g W off N)).ckptWrites,
        p.1 = p.2) ∧
    (process_file_row_sharded ctx f g W off N rows oracle).ckptWrites =
      (run_rows ctx f rows oracle initState (myRows g W off N)).ckptWrites ++
        [((myRows g W off N).length,
          (process_file_row_sharded ctx f g W off N rows oracle).flushes)] ∧
    List.Chain' (fun a b => a.1 ≤ b.1)
      (process_file_row_sharded ctx f g W off N rows oracle).ckptWrites := by
  obtain ⟨h1, h2, h3⟩ := inv_run hf rows oracle (myRows g W off N) (inv_init f)
  refine ⟨?_, rfl, ?_⟩
  · intro p hp
    rw [h3] at hp
    obtain ⟨k, _, hkp⟩ := List.mem_map.1 hp
    rw [← hkp]
  · show List.Chain' _
      ((run_rows ctx f rows oracle initState (myRows g W off N)).ckptWrites ++
        [((myRows g W off N).length, _)])
    rw [h3, List.chain'_append]
    refine ⟨?_, List.chain'_singleton _, ?_⟩
    · rw [List.chain'_map]
      exact List.Pairwise.chain'
        ((List.pairwise_lt_range _).imp (fun h => by omega))
    · intro x hx y hy
      have hcount : (run_rows ctx f rows oracle initState (myRows g W off N)).count ≤
          (myRows g W off N).length := by
        have := count_run_le ctx f rows oracle (myRows g W off N) initState
        simpa [initState] using this
      have hfl : (run_rows ctx f rows oracle initState (myRows g W off N)).flushes ≤
          (myRows g W off N).length := by
        rw [h1]
        exact Nat.le_trans (Nat.div_le_self _ _) hcount
      match hm : (run_rows ctx f rows oracle initState (myRows g W off N)).flushes with
      | 0 =>
        rw [hm] at hx
        simp at hx
      | m + 1 =>
        rw [hm] at hx
        have hlast : ((List.range (m + 1)).map
            (fun k => (k + 1, k + 1))).getLast? = some (m + 1, m + 1) := by
          rw [List.range_succ, List.map_append]
          simp
        rw [hlast] at hx
        simp only [Option.mem_def, Option.some.injEq] at hx
        simp only [List.head?_cons, Option.mem_def, Option.some.injEq] at hy
        rw [← hx, ← hy]
        simp only []
        omega

/-- Witness for C4 (amended) at `ctx = 10000`, `flush_every = 20`,
worker 0 of 1, 3 rows. -/
theorem C4_checkpoint_trace_witness :
    (∀ p ∈ (run_rows 10000 20 demoRows demoOracle initState
        (myRows 0 1 0 3)).ckptWrites, p.1 = p.2) ∧
    (process_file_row_sharded 10000 20 0 1 0 3 demoRows demoOracle).ckptWrites =
      (run_rows 10000 20 demoRows demoOracle initState (myRows 0 1 0 3)).ckptWrites ++
        [((myRows 0 1 0 3).length,
          (process_file_row_sharded 10000 20 0 1 0 3 demoRows demoOracle).flushes)] ∧
    List.Chain' (fun a b => a.1 ≤ b.1)
      (process_file_row_sharded 10000 20 0 1 0 3 demoRows demoOracle).ckptWrites :=
  C4_checkpoint_trace 10000 20 0 1 0 3 (by decide) demoRows demoOracle

/-- C5: for every prompt, if the backend is transient (connection failure
or 503 "Loading model") on exactly the first `k < 60` attempts and then
succeeds, the call returns the success content after `k` retry delays;
if the transient condition persists through attempt 60, the call ends in
the fatal exhaustion error naming the endpoint and the attempt count
(after 59 delays) instead of returning. -/
theorem C5_retry_bound (url : String) :
    (∀ (responses : Nat → Attempt) (k : Nat) (msg payload c : String),
      k < 60 →
      (∀ i, 1 ≤ i → i ≤ k → isTransient (responses i) = true) →
      responses (k + 1) = .resp 200 msg payload (some c) →
      llama_server_infer url responses = (.content c, k)) ∧
    (∀ responses : Nat → Attempt,
      (∀ i, 1 ≤ i → i ≤ 60 → isTransient (responses i) = true) →
      (∃ e, llama_server_infer url responses = (.connExhausted url 60 e, 59)) ∨
      llama_server_infer url responses = (.loadingExhausted url 60, 59)) := by
  constructor
  · intro responses k msg payload c hk htr hsucc
    unfold llama_server_infer max_attempts
    rw [inferAux_skip_transient url responses 60 k 1 60 0
      (fun i h1 h2 => htr i h1 (by omega)) (by omega) (by omega)]
    have hfu : ∃ fu, 60 - k = fu + 1 := ⟨59 - k, by omega⟩
    obtain ⟨fu, hfu⟩ := hfu
    have h1k : 1 + k = k + 1 := by omega
    rw [hfu, h1k]
    simp [inferAux, hsucc]
  · intro responses htr
    unfold llama_server_infer max_attempts
    rw [inferAux_skip_transient url responses 60 59 1 60 0
      (fun i h1 h2 => htr i h1 (by omega)) (by omega) (by omega)]
    norm_num
    have h60 := htr 60 (by omega) (by omega)
    cases hra : responses 60 with
    | connFail e =>
      left
      exact ⟨e, by simp [inferAux, hra]⟩
    | resp status errMsg payload content =>
      rw [hra] at h60
      obtain ⟨h503, hload⟩ := isTransient_resp h60
      right
      subst h503
      simp [inferAux, hra, hload]

/-- Witness for C5: two connection failures then success yields the
content after 2 delays. -/
theorem C5_retry_bound_witness :
    llama_server_infer "u"
      (fun i => if i ≤ 2 then .connFail "boom" else .resp 200 "" "" (some "hi")) =
      (.content "hi", 2) :=
  (C5_retry_bound "u").1
    (fun i => if i ≤ 2 then .connFail "boom" else .resp 200 "" "" (some "hi"))
    2 "" "" "hi" (by decide)
    (fun i h1 h2 => by
      have : i ≤ 2 := h2
      simp [this, isTransient])
    rfl

/-- C6: classification of the first backend response — HTTP 200 returns
`choices[0].message.content` immediately (no delay); HTTP 503 whose error
message contains "Loading model" is retried as transient (the call
continues as the same loop at attempt 2 with one delay recorded); any
other non-200 status (including a 503 without that message) is
immediately fatal with the backend's diagnostic payload and no retry. -/
theorem C6_response_classification (url : String) :
    (∀ (responses : Nat → Attempt) (msg payload c : String),
      responses 1 = .resp 200 msg payload (some c) →
      llama_server_infer url responses = (.content c, 0)) ∧
    (∀ (responses : Nat → Attempt) (msg payload : String) (c : Option String),
      responses 1 = .resp 503 msg payload c →
      isLoadingMsg msg = true →
      llama_server_infer url responses = inferAux url responses 60 2 59 1) ∧
    (∀ (responses : Nat → Attempt) (status : Nat) (msg payload : String) (c : Option String),
      responses 1 = .resp status msg payload c →
      status ≠ 200 →
      ¬ (status = 503 ∧ isLoadingMsg msg = true) →
      llama_server_infer url responses = (.httpError status payload, 0)) := by
  refine ⟨?_, ?_, ?_⟩
  · intro responses msg payload c h1
    unfold llama_server_infer max_attempts
    simp [inferAux, h1]
  · intro responses msg payload c h1 hload
    unfold llama_server_infer max_attempts
    rw [inferAux_skip_transient url responses 60 1 1 60 0
      (fun i hi1 hi2 => by
        have hieq : i = 1 := by omega
        subst hieq
        rw [h1]
        simp [isTransient, hload]) (by omega) (by omega)]
  · intro responses status msg payload c h1 hne hnl
    unfold llama_server_infer max_attempts
    simp [inferAux, h1, hne, hnl]

/-- Witness for C6: a 404 response is immediately fatal with its
payload. -/
theorem C6_response_classification_witness :
    llama_server_infer "u" (fun _ => .resp 404 "" "not found" none) =
      (.httpError 404 "not found", 0) :=
  (C6_response_classification "u").2.2 (fun _ => .resp 404 "" "not found" none)
    404 "" "not found" none rfl (by decide) (by decide)

/-- C7 (amended): (1) a text that is `prefix ++ instance` — with no `\x7b`
in the prefix, and the trailing instance a decodable, schema-valid JSON
object — parses to that object, which carries all required keys; (2) if
the extraction matched and decoding succeeded but a required key is
missing or an extra key is present at any object level, the result is the
schema-violation error; (3) a text with no `\x7b`...`\x7d` substring
ending it (up to trailing whitespace) gives the no-embedded-object
error. -/
theorem C7_validator_roundtrip :
    (∀ (p v : List Char) (j : Json),
      lbrace ∉ p → v.head? = some lbrace → v.getLast? = some rbrace →
      jsonLoadsL v = some j → vPureMath j = true →
      parseStrictCore (p ++ v) = .ok j ∧ reqPureMath j = true) ∧
    (∀ (cs g : List Char) (j : Json),
      regexExtract cs = some g → jsonLoadsL g = some j →
      (reqPureMath j = false ∨ extraPureMath j = false) →
      parseStrictCore cs = .schemaViolation j) ∧
    (∀ cs : List Char, ¬ HasEndingObj cs → parseStrictCore cs = .noJson) := by
  refine ⟨?_, ?_, ?_⟩
  · intro p v j hp hv1 hv2 hload hvalid
    have hext := extract_prefix_obj hp hv1 hv2
    exact ⟨by simp [parseStrictCore, hext, hload, hvalid],
           (vPureMath_req_extra hvalid).1⟩
  · intro cs g j hext hload hbad
    have hvf : vPureMath j = false := by
      cases hv : vPureMath j
      · rfl
      · exfalso
        obtain ⟨hr, he⟩ := vPureMath_req_extra hv
        rcases hbad with hb | hb <;> simp_all
    simp [parseStrictCore, hext, hload, hvf]
  · intro cs hno
    simp [parseStrictCore, extract_eq_none_of_not_hasEndingObj hno]

set_option maxRecDepth 4000 in
/-- Witness for C7 at a concrete prefix and instance. -/
theorem C7_validator_roundtrip_witness :
    parseStrictCore ("noise ".data ++ sampleInstance.data) = .ok sampleJson ∧
    reqPureMath sampleJson = true :=
  C7_validator_roundtrip.1 "noise ".data sampleInstance.data sampleJson
    (by decide) (by decide) (by decide) rfl rfl

set_option maxRecDepth 4000 in
/-- C7 (counterexample): a text ending in a valid instance of the schema
on which `parse_strict_json` nevertheless fails — the prefix contains a
`\x7b`, the regex matches greedily from that first `\x7b`, and
`json.loads` raises on the resulting group, so the call ends in a decode
error, not success. -/
theorem C7_prefix_brace_counterexample :
    parse_strict_json ("\x7b " ++ sampleInstance) = .decodeError ∧
    jsonLoads sampleInstance = some sampleJson ∧
    vPureMath sampleJson = true ∧
    sampleInstance.data.head? = some lbrace ∧
    sampleInstance.data.getLast? = some rbrace :=
  ⟨rfl, rfl, rfl, rfl, by decide⟩

/-- C8: a row whose inference call succeeded but whose output fails
parsing/validation (for any reason) is still buffered: `count` advances
by one and the record — carrying the raw model output, `paper_id`,
`equation_id`, the raw and cleaned expression and the row index, but no
structured fields — is appended to the worker's accumulated output
(buffer plus flushed file); processing then continues from the returned
state. -/
theorem C8_validation_failure_not_fatal (ctx f i : Nat) (st : LoopState) (row : Row)
    (content : String)
    (hlen : ¬ (build_prompt (katex_hygiene row.content_resolved)).length > ctx * 4)
    (hfail : ∀ j, parse_strict_json content ≠ .ok j) :
    (process_row ctx f st i row (.ok content)).count = st.count + 1 ∧
    (process_row ctx f st i row (.ok content)).outFile ++
        (process_row ctx f st i row (.ok content)).buffer =
      st.outFile ++ st.buffer ++
        [⟨row.paper_id, row.equation_id, row.content_resolved,
          katex_hygiene row.content_resolved, content, i, none⟩] := by
  have hstruct : (match parse_strict_json content with
      | ParseOutcome.ok j => if pyTruthy j then some j else none
      | ParseOutcome.noJson => none
      | ParseOutcome.decodeError => none
      | ParseOutcome.schemaViolation _ => none) = (none : Option Json) := by
    cases hp : parse_strict_json content with
    | ok j => exact absurd hp (hfail j)
    | noJson => rfl
    | decodeError => rfl
    | schemaViolation j => rfl
  have hrec : process_row ctx f st i row (.ok content) =
      push_record f st ⟨row.paper_id, row.equation_id, row.content_resolved,
        katex_hygiene row.content_resolved, content, i, none⟩ := by
    rw [process_row_ok_eq hlen, hstruct]
  rw [hrec, count_push]
  refine ⟨rfl, ?_⟩
  simp only [push_record]
  split
  · simp [do_flush]
  · simp

/-- Witness for C8: a short model output with no JSON in it is still
recorded without structured fields. -/
theorem C8_validation_failure_not_fatal_witness :
    (process_row 10000 2 initState 0 demoRow (.ok "out")).count = initState.count + 1 ∧
    (process_row 10000 2 initState 0 demoRow (.ok "out")).outFile ++
        (process_row 10000 2 initState 0 demoRow (.ok "out")).buffer =
      initState.outFile ++ initState.buffer ++
        [⟨demoRow.paper_id, demoRow.equation_id, demoRow.content_resolved,
          katex_hygiene demoRow.content_resolved, "out", 0, none⟩] :=
  C8_validation_failure_not_fatal 10000 2 0 initState demoRow "out"
    (demo_hlen 10000 (by decide) 0)
    (fun j h => by
      rw [show parse_strict_json "out" = ParseOutcome.noJson from rfl] at h
      exact ParseOutcome.noConfusion h)

/-- C9: the checkpoint read returns 0 when the file is absent; returns 0
(rather than raising) when the contents are unparseable, are not a JSON
object, lack the `row_offset` key, or hold a value `int()` rejects; and
returns the persisted integer offset otherwise. -/
theorem C9_checkpoint_read_recovery :
    read_rank_ckpt .absent = 0 ∧
    (∀ s, jsonLoads s = none → read_rank_ckpt (.content s) = 0) ∧
    (∀ s j, jsonLoads s = some j → (∀ kvs, j ≠ .obj kvs) →
      read_rank_ckpt (.content s) = 0) ∧
    (∀ s kvs, jsonLoads s = some (.obj kvs) → jlookup kvs "row_offset" = none →
      read_rank_ckpt (.content s) = 0) ∧
    (∀ s kvs v, jsonLoads s = some (.obj kvs) → jlookup kvs "row_offset" = some v →
      pyToInt v = none → read_rank_ckpt (.content s) = 0) ∧
    (∀ s kvs (n : Int), jsonLoads s = some (.obj kvs) →
      jlookup kvs "row_offset" = some (.num n) →
      read_rank_ckpt (.content s) = n) := by
  refine ⟨rfl, ?_, ?_, ?_, ?_, ?_⟩
  · intro s h
    simp [read_rank_ckpt, h]
  · intro s j h hno
    cases j with
    | obj kvs => exact absurd rfl (hno kvs)
    | null => simp [read_rank_ckpt, h]
    | bool b => simp [read_rank_ckpt, h]
    | num n => simp [read_rank_ckpt, h]
    | str s2 => simp [read_rank_ckpt, h]
    | arr xs => simp [read_rank_ckpt, h]
  · intro s kvs h hl
    simp [read_rank_ckpt, h, hl]
  · intro s kvs v h hl hi
    simp [read_rank_ckpt, h, hl, hi]
  · intro s kvs n h hl
    simp [read_rank_ckpt, h, hl, pyToInt]

/-- Witness for C9: a well-formed checkpoint file read back. -/
theorem C9_checkpoint_read_recovery_witness :
    read_rank_ckpt (.content "\x7b\"row_offset\": 3\x7d") = 3 :=
  C9_checkpoint_read_recovery.2.2.2.2.2 "\x7b\"row_offset\": 3\x7d"
    [("row_offset", Json.num 3)] 3 rfl rfl

/-- C10: an assigned row whose built prompt exceeds `ctx * 4` characters
is skipped entirely: the loop state is returned unchanged — no record
buffered or written, the processed-row count not advanced, the
checkpoint trace untouched — and this holds for every inference oracle
outcome, so the skip happens without consulting the backend. -/
theorem C10_oversized_prompt_skipped (ctx f i : Nat) (st : LoopState) (row : Row)
    (h : (build_prompt (katex_hygiene row.content_resolved)).length > ctx * 4) :
    ∀ o : RowInfer, process_row ctx f st i row o = st :=
  fun _ => process_row_skip h

/-- Witness for C10 at `ctx = 0`: every prompt is oversized. -/
theorem C10_oversized_prompt_skipped_witness :
    process_row 0 20 initState 5 demoRow RowInfer.err = initState :=
  C10_oversized_prompt_skipped 0 20 5 initState demoRow
    (by rw [build_prompt_length]; omega) RowInfer.err

end Pipeline
